import Mathlib

/-!
Shallow embedding of `src/main.py` of pmrowla/pdf-mcp.

The Python module normalizes one page of a parsed PDF document into a
JSON-safe nested value.  PDF parsing itself is delegated to pdfminer and is
modelled at its interface: a parsed document is an ordered list of pages, a
page carries a content-stream list and a resource mapping, a stream carries
an object id, a declared filter list, its raw bytes and its fully decoded
bytes (the result of pdfminer's `get_data()`), and an indirect reference
carries the value that pdfminer's `resolve1` returns for it.

Python dicts are modelled as insertion-ordered association lists with
Python's assignment semantics (update in place if the key exists, append
otherwise); Python dict equality ignores insertion order, which is captured
below by the key-sorting canonicalizer `canon`.  Python `bytes` values are
lists of naturals below 256, and `bytes.decode("ascii")` is the partial
function `asciiDecode`.  Exceptions (`ValueError` for a page out of range,
`UnicodeDecodeError` from `.decode("ascii")`) are modelled with `Except`.
-/

namespace PdfMcp

mutual

/-- Runtime shapes that `dump_obj` dispatches on: `None`, `dict`, `list`,
`str`, `bytes`, `PDFStream`, `PDFObjRef`, and any other value (rendered via
`repr`, carried here as its repr string). -/
inductive Obj : Type where
  | null : Obj
  | dict : Entries → Obj
  | list : ObjList → Obj
  | str : String → Obj
  | bytes : List Nat → Obj
  | stream : StreamData → Obj
  | ref : Obj → Obj
  | other : String → Obj

/-- A Python list of `Obj` values. -/
inductive ObjList : Type where
  | nil : ObjList
  | cons : Obj → ObjList → ObjList

/-- A Python dict with string keys, as an insertion-ordered association
list. -/
inductive Entries : Type where
  | nil : Entries
  | cons : String → Obj → Entries → Entries

/-- The list `PDFStream.get_filters()` returns: (filter name, params)
pairs. -/
inductive Filters : Type where
  | nil : Filters
  | fcons : String → Obj → Filters → Filters

/-- The slice of pdfminer's `PDFStream` that `dump_stream` reads: `objid`,
`get_filters()`, `rawdata`, and the fully decoded bytes `get_data()`
returns. -/
inductive StreamData : Type where
  | mk : Nat → Filters → List Nat → List Nat → StreamData

end

def StreamData.objid : StreamData → Nat
  | .mk o _ _ _ => o

def StreamData.filters : StreamData → Filters
  | .mk _ f _ _ => f

def StreamData.rawdata : StreamData → List Nat
  | .mk _ _ r _ => r

def StreamData.get_data : StreamData → List Nat
  | .mk _ _ _ d => d

def Filters.length : Filters → Nat
  | .nil => 0
  | .fcons _ _ rest => rest.length + 1

/-- The last (filter name, params) pair of a filter list. -/
def Filters.lastPair : Filters → Option (String × Obj)
  | .nil => none
  | .fcons f p .nil => some (f, p)
  | .fcons _ _ (.fcons f p rest) => Filters.lastPair (.fcons f p rest)

/-- Python dict assignment `d[k] = v`: update in place when `k` is present,
append at the end otherwise. -/
def Entries.insert : Entries → String → Obj → Entries
  | .nil, k, v => .cons k v .nil
  | .cons k' v' rest, k, v =>
      if k' = k then .cons k' v rest else .cons k' v' (rest.insert k v)

def Entries.lookup : Entries → String → Option Obj
  | .nil, _ => none
  | .cons k' v rest, k => if k' = k then some v else rest.lookup k

def Entries.length : Entries → Nat
  | .nil => 0
  | .cons _ _ rest => rest.length + 1

def ObjList.length : ObjList → Nat
  | .nil => 0
  | .cons _ rest => rest.length + 1

/-- The standard base64 alphabet, as `base64.b64encode` uses it. -/
def b64Char (n : Nat) : Char :=
  "ABCDEFGHIJKLMNOPQRSTUVWXYZabcdefghijklmnopqrstuvwxyz0123456789+/".toList.getD n 'A'

/-- `base64.b64encode(bs).decode("ascii")`: RFC 4648 base64 with `=`
padding.  Bytes are reduced mod 256, matching the `bytes` invariant. -/
def b64encode : List Nat → String
  | [] => ""
  | [a] =>
      let a := a % 256
      String.mk [b64Char (a / 4), b64Char (a % 4 * 16), '=', '=']
  | [a, b] =>
      let a := a % 256
      let b := b % 256
      String.mk [b64Char (a / 4), b64Char (a % 4 * 16 + b / 16),
        b64Char (b % 16 * 4), '=']
  | a :: b :: c :: rest =>
      let a' := a % 256
      let b' := b % 256
      let c' := c % 256
      String.mk [b64Char (a' / 4), b64Char (a' % 4 * 16 + b' / 16),
        b64Char (b' % 16 * 4 + c' / 64), b64Char (c' % 64)] ++ b64encode rest

/-- `bs.decode("ascii")`: succeeds exactly when every byte is below 128,
raising `UnicodeDecodeError` otherwise. -/
def asciiDecode (bs : List Nat) : Option String :=
  if bs.all (· < 128) then some (String.mk (bs.map Char.ofNat)) else none

/-- Errors the dump path can raise: `ValueError("Page out of range")` and
a decode error from `.decode("ascii")`. -/
inductive Err : Type where
  | outOfRange : Err
  | decodeError : Err
  deriving DecidableEq

/-- pdfminer's `LITERALS_FLATE_DECODE`: the literals `FlateDecode` and
`Fl`. -/
def LITERALS_FLATE_DECODE : List String := ["FlateDecode", "Fl"]

/-- One iteration of the `for f, params in filters` loop body of
`dump_stream`. -/
def applyFilter (sd : StreamData) (result : Entries) (f : String)
    (params : Obj) : Except Err Entries :=
  if f ∈ LITERALS_FLATE_DECODE then
    match asciiDecode sd.get_data with
    | some s => .ok (result.insert "stream" (.str s))
    | none => .error .decodeError
  else
    .ok ((result.insert "params" params).insert "stream"
      (.str (b64encode sd.rawdata)))

/-- The `for f, params in filters` loop of `dump_stream`, threading the
`result` dict. -/
def runFilters (sd : StreamData) : Filters → Entries → Except Err Entries
  | .nil, result => .ok result
  | .fcons f params rest, result =>
      match applyFilter sd result f params with
      | .ok result' => runFilters sd rest result'
      | .error e => .error e

/-- The `result` dict that `dump_stream` builds before wrapping it under
the object-id key. -/
def streamResult (sd : StreamData) : Except Err Entries :=
  match sd.filters with
  | .nil =>
      match asciiDecode sd.get_data with
      | some s => .ok (Entries.nil.insert "stream" (.str s))
      | none => .error .decodeError
  | .fcons f params rest => runFilters sd (.fcons f params rest) .nil

/-- The key `f"\x7bstream.objid\x7d 0 obj"` of the stream record. -/
def streamKey (sd : StreamData) : String := toString sd.objid ++ " 0 obj"

/-- `dump_stream` from `src/main.py`. -/
def dump_stream (sd : StreamData) : Except Err Obj :=
  match streamResult sd with
  | .ok result => .ok (.dict (.cons (streamKey sd) (.dict result) .nil))
  | .error e => .error e

mutual

/-- `dump_obj` from `src/main.py`.  An `Obj.ref` carries the value
`resolve1` returns for it, so the reference branch recurses into that
value. -/
def dump_obj : Obj → Except Err Obj
  | .null => .ok .null
  | .dict es =>
      match dumpEntries es with
      | .ok es' => .ok (.dict es')
      | .error e => .error e
  | .list xs =>
      match dumpList xs with
      | .ok xs' => .ok (.list xs')
      | .error e => .error e
  | .str s => .ok (.str s)
  | .bytes b => .ok (.str (b64encode b))
  | .stream sd => dump_stream sd
  | .ref target => dump_obj target
  | .other r => .ok (.str r)

/-- The dict comprehension of `dump_obj`: keys preserved, values dumped in
order, the first exception propagating. -/
def dumpEntries : Entries → Except Err Entries
  | .nil => .ok .nil
  | .cons k v rest =>
      match dump_obj v with
      | .error e => .error e
      | .ok v' =>
          match dumpEntries rest with
          | .error e => .error e
          | .ok rest' => .ok (.cons k v' rest')

/-- The list comprehension of `dump_obj`. -/
def dumpList : ObjList → Except Err ObjList
  | .nil => .ok .nil
  | .cons h t =>
      match dump_obj h with
      | .error e => .error e
      | .ok h' =>
          match dumpList t with
          | .error e => .error e
          | .ok t' => .ok (.cons h' t')

end

/-- A parsed page at the interface `dump_page` uses: `page.contents` (the
content-stream list) and `page.resources` (the resource dict, with keys
already coerced to their `str()` display form). -/
inductive Page : Type where
  | mk : ObjList → Entries → Page

def Page.contents : Page → ObjList
  | .mk c _ => c

def Page.resources : Page → Entries
  | .mk _ r => r

/-- The `for obj in page.contents` loop of `dump_page`: starts from the
empty dict and overwrites `contents` with `dump_obj(obj)` on every
iteration. -/
def dumpContents : ObjList → Obj → Except Err Obj
  | .nil, contents => .ok contents
  | .cons obj rest, _ =>
      match dump_obj obj with
      | .ok c => dumpContents rest c
      | .error e => .error e

/-- The `for k, v in page.resources.items()` loop of `dump_page`, building
the `resources` dict by assignment. -/
def dumpResources : Entries → Entries → Except Err Entries
  | .nil, acc => .ok acc
  | .cons k v rest, acc =>
      match dump_obj v with
      | .error e => .error e
      | .ok v' => dumpResources rest (acc.insert k v')

/-- The body of `dump_page` once the requested page is matched. -/
def renderPage (page : Page) : Except Err Obj :=
  match dumpContents page.contents (.dict .nil) with
  | .error e => .error e
  | .ok contents =>
      match dumpResources page.resources .nil with
      | .error e => .error e
      | .ok resources =>
          .ok (.dict (.cons "contents" contents
            (.cons "resources" (.dict resources) .nil)))

/-- The `for i, page in enumerate(pages)` walk of `dump_page`, with the
running 0-based index `i` made explicit.  The page number is a Python
`int`, hence `Int`. -/
def findPage : List Page → Nat → Int → Except Err Obj
  | [], _, _ => .error .outOfRange
  | page :: rest, i, pagenum =>
      if (i : Int) + 1 = pagenum then renderPage page
      else findPage rest (i + 1) pagenum

/-- `dump_page` from `src/main.py`, taken at the already-parsed document
(the ordered page list `PDFPage.create_pages` yields); the parse step
itself belongs to pdfminer. -/
def dump_page (pages : List Page) (pagenum : Int) : Except Err Obj :=
  findPage pages 0 pagenum

/-- Insert an entry into a key-sorted entry list, keeping it sorted. -/
def insertByKey (k : String) (v : Obj) : Entries → Entries
  | .nil => .cons k v .nil
  | .cons k' v' rest =>
      if compare k k' = Ordering.lt then .cons k v (.cons k' v' rest)
      else .cons k' v' (insertByKey k v rest)

/-- Sort an entry list by key (insertion sort). -/
def sortEntries : Entries → Entries
  | .nil => .nil
  | .cons k v rest => insertByKey k v (sortEntries rest)

mutual

/-- Canonicalizer capturing Python `==` on the values `dump_*` handles:
Python dict equality ignores insertion order, so every dict's entries are
sorted by key; all other shapes compare structurally.  Two dicts with
distinct keys are `==` in Python exactly when their canonical forms are
equal. -/
def canon : Obj → Obj
  | .null => .null
  | .dict es => .dict (sortEntries (canonEntries es))
  | .list xs => .list (canonList xs)
  | .str s => .str s
  | .bytes b => .bytes b
  | .stream sd => .stream sd
  | .ref t => .ref (canon t)
  | .other r => .other r

def canonEntries : Entries → Entries
  | .nil => .nil
  | .cons k v rest => .cons k (canon v) (canonEntries rest)

def canonList : ObjList → ObjList
  | .nil => .nil
  | .cons h t => .cons (canon h) (canonList t)

end

mutual

/-- Fully-normalized values: `None`, text strings, and dicts/lists built
only from such values — no raw `bytes`, no streams, no indirect
references, no fallback-repr values. -/
def isNormal : Obj → Bool
  | .null => true
  | .str _ => true
  | .dict es => isNormalEntries es
  | .list xs => isNormalList xs
  | .bytes _ => false
  | .stream _ => false
  | .ref _ => false
  | .other _ => false

def isNormalEntries : Entries → Bool
  | .nil => true
  | .cons _ v rest => isNormal v && isNormalEntries rest

def isNormalList : ObjList → Bool
  | .nil => true
  | .cons h t => isNormal h && isNormalList t

end

/-- Does a filter list contain a pair whose name is not a recognized
deflate-style literal? -/
def hasUnknownFilter : Filters → Bool
  | .nil => false
  | .fcons f _ rest =>
      if f ∈ LITERALS_FLATE_DECODE then hasUnknownFilter rest else true

/-- A directory as `find_resources` observes it through `pathlib`: whether
it exists and can be scanned, and the stems of the `*.pdf` entries a
successful scan yields. -/
structure Directory : Type where
  readable : Bool
  pdfStems : List String

/-- Model of `pathlib.Path.glob("*.pdf")`: globbing a directory that does
not exist or cannot be scanned yields no entries instead of raising
(pathlib checks `is_dir` on the base first and suppresses scan errors);
an existing directory yields its matching entries. -/
def globPdf (d : Directory) : List String :=
  if d.readable then d.pdfStems else []

/-- One `FileResource` registration performed by `find_resources`. -/
structure Resource : Type where
  uri : String
  stem : String
  mimeType : String
  deriving DecidableEq

/-- A fatal startup error; `find_resources` would fail with one if it
checked the directory. -/
inductive StartupError : Type where
  | fatal : String → StartupError
  deriving DecidableEq

/-- `find_resources` from `src/main.py`: registers one resource per
`*.pdf` glob match.  It performs no existence check of its own, so the
only way it could fail is through the glob, which never raises. -/
def find_resources (d : Directory) : Except StartupError (List Resource) :=
  .ok ((globPdf d).map fun stem =>
    { uri := "pdf://" ++ stem, stem := stem, mimeType := "application/pdf" })

end PdfMcp

deriving instance DecidableEq for PdfMcp.Obj

namespace PdfMcp

theorem Entries.lookup_insert_self : ∀ (es : Entries) (k : String) (v : Obj),
    (es.insert k v).lookup k = some v
  | .nil, k, v => by simp [Entries.insert, Entries.lookup]
  | .cons k' v' rest, k, v => by
      by_cases h : k' = k
      · simp [Entries.insert, h, Entries.lookup]
      · simp [Entries.insert, h, Entries.lookup,
          Entries.lookup_insert_self rest k v]

theorem Entries.lookup_insert_ne : ∀ (es : Entries) (k k2 : String) (v : Obj),
    k ≠ k2 → (es.insert k v).lookup k2 = es.lookup k2
  | .nil, k, k2, v, hk => by simp [Entries.insert, Entries.lookup, hk]
  | .cons k' v' rest, k, k2, v, hk => by
      by_cases h : k' = k
      · subst h
        simp [Entries.insert, Entries.lookup, hk]
      · simp [Entries.insert, h, Entries.lookup,
          Entries.lookup_insert_ne rest k k2 v hk]

theorem findPage_no_match : ∀ (pages : List Page) (i : Nat) (pn : Int),
    pn < (i : Int) + 1 ∨ (i : Int) + pages.length < pn →
    findPage pages i pn = .error .outOfRange
  | [], _, _, _ => rfl
  | page :: rest, i, pn, h => by
      have hlen : ((page :: rest).length : Int) = (rest.length : Int) + 1 := by
        push_cast [List.length_cons]
        ring
      have hne : ¬ ((i : Int) + 1 = pn) := by
        rcases h with h | h
        · omega
        · rw [hlen] at h
          omega
      rw [findPage, if_neg hne]
      refine findPage_no_match rest (i + 1) pn ?_
      rcases h with h | h
      · left
        push_cast
        omega
      · right
        rw [hlen] at h
        push_cast
        omega

theorem findPage_append : ∀ (pre : List Page) (p : Page) (post : List Page)
    (i : Nat) (pn : Int), pn = (i : Int) + pre.length + 1 →
    findPage (pre ++ p :: post) i pn = renderPage p
  | [], p, post, i, pn, h => by
      have : (i : Int) + 1 = pn := by
        simp at h
        omega
      rw [List.nil_append, findPage, if_pos this]
  | q :: pre', p, post, i, pn, h => by
      have hlen : pn = (i : Int) + pre'.length + 2 := by
        rw [h]
        push_cast [List.length_cons]
        ring
      have hne : ¬ ((i : Int) + 1 = pn) := by omega
      rw [List.cons_append, findPage, if_neg hne]
      refine findPage_append pre' p post (i + 1) pn ?_
      push_cast
      omega

/-- C1: for a well-formed one-page document whose single page has exactly
one content stream with no filters, whose decoded bytes are the ASCII text
`T`, and whose resource mapping is empty, `dump_page` at page 1 returns
the dict with `contents` holding the stream record
(object-id key, `stream` entry `T`) and an empty `resources` dict. -/
theorem dump_page_single_unfiltered (sd : StreamData) (T : String)
    (hf : sd.filters = .nil) (hd : asciiDecode sd.get_data = some T) :
    dump_page [Page.mk (.cons (.stream sd) .nil) .nil] 1 =
      .ok (.dict (.cons "contents"
        (.dict (.cons (streamKey sd)
          (.dict (.cons "stream" (.str T) .nil)) .nil))
        (.cons "resources" (.dict .nil) .nil))) := by
  have h1 : ((0 : Nat) : Int) + 1 = 1 := by norm_num
  rw [dump_page, findPage, if_pos h1]
  simp [renderPage, Page.contents, Page.resources, dumpContents, dump_obj,
    dump_stream, streamResult, hf, hd, dumpResources, Entries.insert,
    streamKey]

theorem dump_page_single_unfiltered_witness :
    asciiDecode (StreamData.mk 4 .nil [66, 84] [66, 84]).get_data =
        some "BT" ∧
    dump_page [Page.mk
        (.cons (.stream (StreamData.mk 4 .nil [66, 84] [66, 84])) .nil)
        .nil] 1 =
      .ok (.dict (.cons "contents"
        (.dict (.cons (streamKey (StreamData.mk 4 .nil [66, 84] [66, 84]))
          (.dict (.cons "stream" (.str "BT") .nil)) .nil))
        (.cons "resources" (.dict .nil) .nil))) :=
  ⟨rfl, dump_page_single_unfiltered (StreamData.mk 4 .nil [66, 84] [66, 84])
    "BT" rfl rfl⟩

/-- C2: for every parsed document, a requested page number that is at most
0 or strictly greater than the page count makes `dump_page` fail with the
out-of-range error, returning no partial result; the 1-based counter walk
means page number 0 can never match. -/
theorem dump_page_out_of_range (pages : List Page) (pagenum : Int)
    (h : pagenum ≤ 0 ∨ (pages.length : Int) < pagenum) :
    dump_page pages pagenum = .error .outOfRange := by
  rw [dump_page]
  refine findPage_no_match pages 0 pagenum ?_
  rcases h with h | h
  · left
    omega
  · right
    push_cast
    omega

theorem dump_page_out_of_range_witness :
    ((5 : Int) ≤ 0 ∨ (([Page.mk .nil .nil].length : Int) < 5)) ∧
    dump_page [Page.mk .nil .nil] 5 = .error .outOfRange :=
  ⟨by norm_num, dump_page_out_of_range [Page.mk .nil .nil] 5 (by norm_num)⟩

/-- C4: when the matched page's content stream list has exactly the two
entries `[A, B]`, a successful `dump_page` result carries `normalize(B)`
alone in its `contents` field — each loop iteration overwrites the prior
result, so only the last stream's normalized form is kept. -/
theorem dump_page_two_content_streams (pre post : List Page) (A B : Obj)
    (res : Entries) (r : Obj)
    (h : dump_page (pre ++ Page.mk (.cons A (.cons B .nil)) res :: post)
      ((pre.length : Int) + 1) = .ok r) :
    ∃ cb rs, dump_obj B = .ok cb ∧ dumpResources res .nil = .ok rs ∧
      r = .dict (.cons "contents" cb
        (.cons "resources" (.dict rs) .nil)) := by
  rw [dump_page, findPage_append pre _ post 0 _ (by push_cast; ring),
    renderPage] at h
  simp only [Page.contents, Page.resources, dumpContents] at h
  cases hA : dump_obj A with
  | error e => rw [hA] at h; simp at h
  | ok cA =>
      rw [hA] at h
      simp only [dumpContents] at h
      cases hB : dump_obj B with
      | error e => rw [hB] at h; simp at h
      | ok cB =>
          rw [hB] at h
          simp only [dumpContents] at h
          cases hres : dumpResources res .nil with
          | error e => rw [hres] at h; simp at h
          | ok rs =>
              rw [hres] at h
              simp only [Except.ok.injEq] at h
              exact ⟨cB, rs, rfl, rfl, h.symm⟩

theorem dump_page_two_content_streams_witness :
    ∃ cb rs, dump_obj (Obj.str "b") = .ok cb ∧
      dumpResources .nil .nil = .ok rs ∧
      Obj.dict (.cons "contents" (.str "b")
          (.cons "resources" (.dict .nil) .nil)) =
        .dict (.cons "contents" cb (.cons "resources" (.dict rs) .nil)) :=
  dump_page_two_content_streams [] [] (.str "a") (.str "b") .nil
    (.dict (.cons "contents" (.str "b")
      (.cons "resources" (.dict .nil) .nil))) rfl

/-- C10: when the matched page's content stream list is empty, `dump_page`
succeeds with the empty dict as its `contents` field (not null, not an
error), while `resources` is still built from the page's resource
mapping. -/
theorem dump_page_empty_contents (pre post : List Page) (res rs : Entries)
    (h : dumpResources res .nil = .ok rs) :
    dump_page (pre ++ Page.mk .nil res :: post) ((pre.length : Int) + 1) =
      .ok (.dict (.cons "contents" (.dict .nil)
        (.cons "resources" (.dict rs) .nil))) := by
  rw [dump_page, findPage_append pre _ post 0 _ (by push_cast; ring),
    renderPage]
  simp [Page.contents, Page.resources, dumpContents, h]

theorem dump_stream_ok (sd : StreamData) (r : Obj)
    (h : dump_stream sd = .ok r) :
    ∃ inner, streamResult sd = .ok inner ∧
      r = .dict (.cons (streamKey sd) (.dict inner) .nil) := by
  cases hs : streamResult sd with
  | error e =>
      simp only [dump_stream, hs] at h
      exact Except.noConfusion h
  | ok inner =>
      simp only [dump_stream, hs, Except.ok.injEq] at h
      exact ⟨inner, rfl, h.symm⟩

theorem runFilters_params_isSome : ∀ (fs : Filters) (sd : StreamData)
    (acc res : Entries), runFilters sd fs acc = .ok res →
    (res.lookup "params").isSome =
      ((acc.lookup "params").isSome || hasUnknownFilter fs)
  | .nil, sd, acc, res, h => by
      simp only [runFilters, Except.ok.injEq] at h
      subst h
      simp [hasUnknownFilter]
  | .fcons f p rest, sd, acc, res, h => by
      cases ha : applyFilter sd acc f p with
      | error e =>
          simp only [runFilters, ha] at h
          exact Except.noConfusion h
      | ok acc' =>
          simp only [runFilters, ha] at h
          have ih := runFilters_params_isSome rest sd acc' res h
          by_cases hf : f ∈ LITERALS_FLATE_DECODE
          · cases hd : asciiDecode sd.get_data with
            | none =>
                simp only [applyFilter, if_pos hf, hd] at ha
                exact Except.noConfusion ha
            | some s =>
                simp only [applyFilter, if_pos hf, hd, Except.ok.injEq] at ha
                subst ha
                rw [ih, Entries.lookup_insert_ne acc "stream" "params"
                  (.str s) (by decide)]
                simp [hasUnknownFilter, hf]
          · simp only [applyFilter, if_neg hf, Except.ok.injEq] at ha
            subst ha
            rw [ih, Entries.lookup_insert_ne _ "stream" "params" _ (by decide),
              Entries.lookup_insert_self]
            simp [hasUnknownFilter, hf]

theorem runFilters_lastPair_stream : ∀ (fs : Filters) (sd : StreamData)
    (acc res : Entries) (f : String) (p : Obj),
    Filters.lastPair fs = some (f, p) → runFilters sd fs acc = .ok res →
    (f ∈ LITERALS_FLATE_DECODE →
      ∃ t, asciiDecode sd.get_data = some t ∧
        res.lookup "stream" = some (.str t)) ∧
    (f ∉ LITERALS_FLATE_DECODE →
      res.lookup "stream" = some (.str (b64encode sd.rawdata)))
  | .nil, _, _, _, _, _, hl, _ => by simp [Filters.lastPair] at hl
  | .fcons f0 p0 .nil, sd, acc, res, f, p, hl, h => by
      simp only [Filters.lastPair, Option.some.injEq, Prod.mk.injEq] at hl
      obtain ⟨hf0, hp0⟩ := hl
      subst hf0
      subst hp0
      cases ha : applyFilter sd acc f0 p0 with
      | error e =>
          simp only [runFilters, ha] at h
          exact Except.noConfusion h
      | ok acc' =>
          simp only [runFilters, ha, Except.ok.injEq] at h
          subst h
          by_cases hf : f0 ∈ LITERALS_FLATE_DECODE
          · cases hd : asciiDecode sd.get_data with
            | none =>
                simp only [applyFilter, if_pos hf, hd] at ha
                exact Except.noConfusion ha
            | some t =>
                simp only [applyFilter, if_pos hf, hd, Except.ok.injEq] at ha
                subst ha
                exact ⟨fun _ => ⟨t, rfl,
                  Entries.lookup_insert_self acc "stream" (.str t)⟩,
                  fun hc => absurd hf hc⟩
          · simp only [applyFilter, if_neg hf, Except.ok.injEq] at ha
            subst ha
            exact ⟨fun hc => absurd hc hf,
              fun _ => Entries.lookup_insert_self _ "stream" _⟩
  | .fcons f0 p0 (.fcons f1 p1 rest), sd, acc, res, f, p, hl, h => by
      rw [Filters.lastPair] at hl
      cases ha : applyFilter sd acc f0 p0 with
      | error e =>
          simp only [runFilters, ha] at h
          exact Except.noConfusion h
      | ok acc' =>
          simp only [runFilters, ha] at h
          exact runFilters_lastPair_stream (.fcons f1 p1 rest) sd acc' res
            f p hl h

theorem dump_page_empty_contents_witness :
    dumpResources (.cons "F" (.str "x") .nil) .nil =
        .ok (.cons "F" (.str "x") .nil) ∧
    dump_page [Page.mk .nil (.cons "F" (.str "x") .nil)]
        ((0 : Int) + 1) =
      .ok (.dict (.cons "contents" (.dict .nil)
        (.cons "resources" (.dict (.cons "F" (.str "x") .nil)) .nil))) :=
  ⟨rfl, dump_page_empty_contents [] [] (.cons "F" (.str "x") .nil)
    (.cons "F" (.str "x") .nil) rfl⟩

/-- C9: for a stream with a non-empty filter list, the successfully
rendered stream record's inner mapping carries a `params` key exactly when
some declared filter is not a recognized deflate-style literal; in
particular, an unrecognized filter followed by a final deflate-style
filter leaves its `params` in the result next to the decoded `stream`
text. -/
theorem dump_stream_params_key :
    (∀ (sd : StreamData) (inner : Entries),
      sd.filters ≠ .nil →
      dump_stream sd =
        .ok (.dict (.cons (streamKey sd) (.dict inner) .nil)) →
      (inner.lookup "params").isSome = hasUnknownFilter sd.filters) ∧
    (∀ (oid : Nat) (uf : String) (p1 p2 : Obj) (raw data : List Nat)
      (t : String), uf ∉ LITERALS_FLATE_DECODE →
      asciiDecode data = some t →
      ∃ inner,
        dump_stream (.mk oid (.fcons uf p1 (.fcons "FlateDecode" p2 .nil))
            raw data) =
          .ok (.dict (.cons (streamKey (.mk oid
            (.fcons uf p1 (.fcons "FlateDecode" p2 .nil)) raw data))
            (.dict inner) .nil)) ∧
        inner.lookup "params" = some p1 ∧
        inner.lookup "stream" = some (.str t)) := by
  constructor
  · intro sd inner hne h
    obtain ⟨inner', hs, hr⟩ := dump_stream_ok sd _ h
    simp only [Obj.dict.injEq, Entries.cons.injEq, true_and, and_true] at hr
    subst hr
    cases cf : sd.filters with
    | nil => exact absurd cf hne
    | fcons f p rest =>
        simp only [streamResult, cf] at hs
        have := runFilters_params_isSome (.fcons f p rest) sd .nil inner hs
        rw [this]
        simp [Entries.lookup]
  · intro oid uf p1 p2 raw data t huf hd
    refine ⟨.cons "params" p1 (.cons "stream" (.str t) .nil), ?_, rfl, rfl⟩
    simp only [dump_stream, streamResult, StreamData.filters, runFilters,
      applyFilter, StreamData.get_data, StreamData.rawdata, if_neg huf]
    have hfl : ("FlateDecode" : String) ∈ LITERALS_FLATE_DECODE := by decide
    rw [if_pos hfl, hd]
    simp [Entries.insert]

theorem dump_stream_params_key_witness :
    (((Entries.cons "params" (.str "P")
        (.cons "stream" (.str "AQI=") .nil)).lookup "params").isSome =
      hasUnknownFilter (StreamData.mk 7
        (.fcons "Foo" (.str "P") .nil) [1, 2] [65]).filters) ∧
    (∃ inner,
      dump_stream (.mk 9 (.fcons "Bar" (.str "Q")
          (.fcons "FlateDecode" .null .nil)) [3] [66]) =
        .ok (.dict (.cons (streamKey (.mk 9 (.fcons "Bar" (.str "Q")
          (.fcons "FlateDecode" .null .nil)) [3] [66]))
          (.dict inner) .nil)) ∧
      inner.lookup "params" = some (.str "Q") ∧
      inner.lookup "stream" = some (.str "B")) :=
  ⟨(dump_stream_params_key.1) (StreamData.mk 7
      (.fcons "Foo" (.str "P") .nil) [1, 2] [65])
      (.cons "params" (.str "P") (.cons "stream" (.str "AQI=") .nil))
      (by intro hh; exact Filters.noConfusion hh) rfl,
    (dump_stream_params_key.2) 9 "Bar" (.str "Q") .null [3] [66] "B"
      (by decide) rfl⟩

/-- C3 as stated is false on the code: with filter list
`[("Foo", null), ("FlateDecode", null)]` over raw bytes `[1, 2]` and
decoded byte `[65]`, the rendered record keeps the `params` entry written
by the first (unrecognized) pair, while rendering with the last pair alone
yields no `params` entry, so the two results differ even up to Python dict
equality. -/
theorem dump_stream_last_pair_counterexample :
    dump_stream (StreamData.mk 7
        (.fcons "Foo" .null (.fcons "FlateDecode" .null .nil)) [1, 2]
        [65]) =
      .ok (.dict (.cons "7 0 obj"
        (.dict (.cons "params" .null (.cons "stream" (.str "A") .nil)))
        .nil)) ∧
    dump_stream (StreamData.mk 7 (.fcons "FlateDecode" .null .nil) [1, 2]
        [65]) =
      .ok (.dict (.cons "7 0 obj"
        (.dict (.cons "stream" (.str "A") .nil)) .nil)) ∧
    canon (.dict (.cons "7 0 obj"
        (.dict (.cons "params" .null (.cons "stream" (.str "A") .nil)))
        .nil)) ≠
      canon (.dict (.cons "7 0 obj"
        (.dict (.cons "stream" (.str "A") .nil)) .nil)) :=
  ⟨rfl, rfl, by decide⟩

/-- C3 amended: for a stream with two or more declared filter pairs, the
last pair alone determines the `stream` entry of the successfully rendered
record — rendering with only the last pair also succeeds and produces the
same `stream` entry (a `params` entry written by an earlier unrecognized
pair may additionally survive); and for the filter list
`[(FlateDecode, p1), (unknown, p2)]` whose decoded data is ASCII, the
rendered result equals, up to Python dict equality, the record holding
`params = p2` and `stream = base64(raw)`. -/
theorem dump_stream_last_filter_amended :
    (∀ (oid : Nat) (fs : Filters) (raw data : List Nat) (f : String)
      (p : Obj) (r : Obj), 2 ≤ fs.length → fs.lastPair = some (f, p) →
      dump_stream (.mk oid fs raw data) = .ok r →
      ∃ inner inner',
        r = .dict (.cons (streamKey (.mk oid fs raw data)) (.dict inner)
          .nil) ∧
        dump_stream (.mk oid (.fcons f p .nil) raw data) =
          .ok (.dict (.cons (streamKey (.mk oid (.fcons f p .nil) raw
            data)) (.dict inner') .nil)) ∧
        inner.lookup "stream" = inner'.lookup "stream") ∧
    (∀ (oid : Nat) (uf : String) (p1 p2 : Obj) (raw data : List Nat)
      (t : String), uf ∉ LITERALS_FLATE_DECODE →
      asciiDecode data = some t →
      ∃ r, dump_stream (.mk oid (.fcons "FlateDecode" p1
          (.fcons uf p2 .nil)) raw data) = .ok r ∧
        canon r = canon (.dict (.cons (toString oid ++ " 0 obj")
          (.dict (.cons "params" p2
            (.cons "stream" (.str (b64encode raw)) .nil))) .nil))) := by
  constructor
  · intro oid fs raw data f p r hlen hl h
    obtain ⟨inner, hs, hr⟩ := dump_stream_ok _ _ h
    cases cf : fs with
    | nil => rw [cf] at hlen; simp [Filters.length] at hlen
    | fcons f0 p0 rest0 =>
        subst cf
        simp only [streamResult, StreamData.filters] at hs
        have hchar := runFilters_lastPair_stream (.fcons f0 p0 rest0)
          (.mk oid (.fcons f0 p0 rest0) raw data) .nil inner f p hl hs
        by_cases hf : f ∈ LITERALS_FLATE_DECODE
        · obtain ⟨t, hd, hlk⟩ := hchar.1 hf
          simp only [StreamData.get_data] at hd
          refine ⟨inner, .cons "stream" (.str t) .nil, by rw [hr],
            ?_, ?_⟩
          · simp only [dump_stream, streamResult, StreamData.filters,
              runFilters, applyFilter, StreamData.get_data, if_pos hf]
            rw [hd]
            simp [Entries.insert]
          · rw [hlk]
            rfl
        · have hlk := hchar.2 hf
          refine ⟨inner, .cons "params" p
            (.cons "stream" (.str (b64encode raw)) .nil), by rw [hr],
            ?_, ?_⟩
          · simp only [dump_stream, streamResult, StreamData.filters,
              runFilters, applyFilter, StreamData.rawdata, if_neg hf]
            simp [Entries.insert]
          · rw [hlk]
            rfl
  · intro oid uf p1 p2 raw data t huf hd
    refine ⟨.dict (.cons (streamKey (.mk oid (.fcons "FlateDecode" p1
        (.fcons uf p2 .nil)) raw data))
      (.dict (.cons "stream" (.str (b64encode raw))
        (.cons "params" p2 .nil))) .nil), ?_, ?_⟩
    · simp only [dump_stream, streamResult, StreamData.filters,
        runFilters, applyFilter, StreamData.get_data, StreamData.rawdata,
        if_neg huf]
      have hfl : ("FlateDecode" : String) ∈ LITERALS_FLATE_DECODE := by
        decide
      rw [if_pos hfl, hd]
      simp [Entries.insert]
    · simp only [streamKey, StreamData.objid, canon, canonEntries,
        sortEntries, insertByKey]
      norm_num [show compare "stream" "params" ≠ Ordering.lt by decide,
        show compare "params" "stream" = Ordering.lt by decide]

theorem dump_stream_last_filter_amended_witness :
    (∃ inner inner',
      (Obj.dict (.cons "7 0 obj" (.dict (.cons "params" Obj.null
          (.cons "stream" (.str "A") .nil))) .nil)) =
        .dict (.cons (streamKey (.mk 7 (.fcons "Foo" .null
          (.fcons "FlateDecode" .null .nil)) [1, 2] [65]))
          (.dict inner) .nil) ∧
      dump_stream (.mk 7 (.fcons "FlateDecode" .null .nil) [1, 2] [65]) =
        .ok (.dict (.cons (streamKey (.mk 7
          (.fcons "FlateDecode" .null .nil) [1, 2] [65]))
          (.dict inner') .nil)) ∧
      inner.lookup "stream" = inner'.lookup "stream") ∧
    (∃ r, dump_stream (.mk 7 (.fcons "FlateDecode" .null
        (.fcons "Bar" (.str "Q") .nil)) [1, 2] [65]) = .ok r ∧
      canon r = canon (.dict (.cons (toString 7 ++ " 0 obj")
        (.dict (.cons "params" (.str "Q")
          (.cons "stream" (.str (b64encode [1, 2])) .nil))) .nil))) :=
  ⟨(dump_stream_last_filter_amended.1) 7
      (.fcons "Foo" .null (.fcons "FlateDecode" .null .nil)) [1, 2] [65]
      "FlateDecode" .null
      (.dict (.cons "7 0 obj" (.dict (.cons "params" Obj.null
        (.cons "stream" (.str "A") .nil))) .nil))
      (by decide) rfl rfl,
    (dump_stream_last_filter_amended.2) 7 "Bar" .null (.str "Q") [1, 2]
      [65] "A" (by decide) rfl⟩

/-- C5: normalizing a one-entry mapping whose value is an indirect
reference resolving to a binary blob `b` yields the same result as
normalizing the mapping with the blob substituted directly, and both
equal the mapping carrying the blob base64-encoded. -/
theorem dump_obj_ref_to_blob (k : String) (b : List Nat) :
    dump_obj (.dict (.cons k (.ref (.bytes b)) .nil)) =
      dump_obj (.dict (.cons k (.bytes b) .nil)) ∧
    dump_obj (.dict (.cons k (.ref (.bytes b)) .nil)) =
      .ok (.dict (.cons k (.str (b64encode b)) .nil)) :=
  ⟨rfl, rfl⟩

mutual

theorem dump_obj_fix_normal : ∀ o : Obj, isNormal o = true →
    dump_obj o = .ok o
  | .null, _ => rfl
  | .str s, _ => rfl
  | .dict es, h => by
      have hes := dumpEntries_fix_normal es (by simpa [isNormal] using h)
      simp [dump_obj, hes]
  | .list xs, h => by
      have hxs := dumpList_fix_normal xs (by simpa [isNormal] using h)
      simp [dump_obj, hxs]
  | .bytes b, h => by simp [isNormal] at h
  | .stream sd, h => by simp [isNormal] at h
  | .ref t, h => by simp [isNormal] at h
  | .other r, h => by simp [isNormal] at h

theorem dumpEntries_fix_normal : ∀ es : Entries,
    isNormalEntries es = true → dumpEntries es = .ok es
  | .nil, _ => rfl
  | .cons k v rest, h => by
      rw [isNormalEntries, Bool.and_eq_true] at h
      have hv := dump_obj_fix_normal v h.1
      have hrest := dumpEntries_fix_normal rest h.2
      simp [dumpEntries, hv, hrest]

theorem dumpList_fix_normal : ∀ xs : ObjList,
    isNormalList xs = true → dumpList xs = .ok xs
  | .nil, _ => rfl
  | .cons hd tl, h => by
      rw [isNormalList, Bool.and_eq_true] at h
      have hh := dump_obj_fix_normal hd h.1
      have ht := dumpList_fix_normal tl h.2
      simp [dumpList, hh, ht]

end

/-- C6: `normalize` applied to a value already in fully-normalized form
(null, text strings, and mappings or sequences built only from such
values — no raw blobs, streams, or indirect references) returns that
value unchanged. -/
theorem dump_obj_normal_identity (o : Obj) (h : isNormal o = true) :
    dump_obj o = .ok o :=
  dump_obj_fix_normal o h

theorem dump_obj_normal_identity_witness :
    isNormal (Obj.dict (.cons "a" (.str "x")
        (.cons "b" (.list (.cons .null .nil)) .nil))) = true ∧
    dump_obj (Obj.dict (.cons "a" (.str "x")
        (.cons "b" (.list (.cons .null .nil)) .nil))) =
      .ok (Obj.dict (.cons "a" (.str "x")
        (.cons "b" (.list (.cons .null .nil)) .nil))) :=
  ⟨rfl, dump_obj_normal_identity (Obj.dict (.cons "a" (.str "x")
    (.cons "b" (.list (.cons .null .nil)) .nil))) rfl⟩

/-- C7 fails on the code: `find_resources` on a directory that does not
exist returns normally with an empty catalog instead of failing with a
fatal startup error (the glob yields nothing and no existence check is
made); an existing directory with zero matches also yields an empty
catalog without error, as the claim allows. -/
theorem find_resources_missing_dir (stems : List String) :
    find_resources ⟨false, stems⟩ = .ok [] ∧
    find_resources ⟨true, []⟩ = .ok [] :=
  ⟨rfl, rfl⟩

end PdfMcp
